import Mathlib

/-!
# OpenFeedbackLayer — verification of the feedback ingestion pipeline

Shallow embedding of the repository's core logic:

* `checkRateLimit` and the `POST` handler from `src/api/feedback/route.ts`
* `analyzeFeedback` (the AI classification client) from `lib/ai-service.ts`

JavaScript strings are modelled as Lean `String`, machine timestamps
(`Date.now()` milliseconds) as `Nat`, JSON numbers as `ℚ` (exact for every
value appearing in this development), and the external collaborators
(Supabase storage/insert, Gemini network call) as explicit oracle inputs.
-/

/-! ## Character and string preliminaries (JS semantics) -/

/-- The backtick character (written via its code point). -/
def btick : Char := Char.ofNat 96

/-- The opening curly brace character. -/
def lbrace : Char := Char.ofNat 123

/-- The closing curly brace character. -/
def rbrace : Char := Char.ofNat 125

/-- JavaScript `\s` / `String.prototype.trim` whitespace, restricted to the
code points that can occur in this development (ASCII whitespace, NBSP, BOM). -/
def isWs (c : Char) : Bool :=
  c = ' ' || c = '\t' || c = '\n' || c = '\r' ||
  c = Char.ofNat 11 || c = Char.ofNat 12 || c = Char.ofNat 160 ||
  c = Char.ofNat 0xFEFF

/-- Trim (JS `trim()`) on character lists. -/
def trimWs (cs : List Char) : List Char :=
  ((cs.dropWhile isWs).reverse.dropWhile isWs).reverse

/-- JS `s.trim()`. -/
def jsTrim (s : String) : String := String.mk (trimWs s.toList)

/-- JS `s.split(sep)` for a one-character separator, on character lists.
`splitOnChar sep []` is `[[]]`, matching `"".split(',') = [""]`. -/
def splitOnChar (sep : Char) : List Char → List (List Char)
  | [] => [[]]
  | c :: cs =>
    match splitOnChar sep cs with
    | [] => [[]]
    | h :: t => if c = sep then [] :: h :: t else (c :: h) :: t

/-- JS `a || b` where `a` is a possibly-absent string (`null`/`undefined` and
`""` are falsy). -/
def jsOrStr (a : Option String) (b : String) : String :=
  match a with
  | some s => if s = "" then b else s
  | none => b

/-- JS `a || null` for a possibly-absent string. -/
def jsOrNull (a : Option String) : Option String :=
  match a with
  | some s => if s = "" then none else some s
  | none => none

/-! ## JSON values and a model of `JSON.parse` -/

/-- JSON values as produced by `JSON.parse`.  Numbers are modelled as `ℚ`
(exact for every literal occurring in this development). -/
inductive Jv where
  | null : Jv
  | bool (b : Bool) : Jv
  | num (q : ℚ) : Jv
  | str (s : String) : Jv
  | arr (xs : List Jv) : Jv
  | obj (fields : List (String × Jv)) : Jv

/-- JSON whitespace (`ws` in RFC 8259, as accepted by `JSON.parse`). -/
def isJsonWs (c : Char) : Bool :=
  c = ' ' || c = '\t' || c = '\n' || c = '\r'

/-- Skip JSON whitespace. -/
def skipJWs (cs : List Char) : List Char := cs.dropWhile isJsonWs

/-- Digit test. -/
def isDigitCh (c : Char) : Bool := '0' ≤ c && c ≤ '9'

/-- Read a maximal run of digits: value, number of digits, rest. -/
def readDigits : List Char → Nat → Nat → Nat × Nat × List Char
  | [], v, n => (v, n, [])
  | c :: cs, v, n =>
    if isDigitCh c then readDigits cs (v * 10 + (c.toNat - 48)) (n + 1)
    else (v, n, c :: cs)

/-- JSON integer part: `0` or a nonzero digit followed by digits. -/
def readIntPart (cs : List Char) : Option (Nat × List Char) :=
  match cs with
  | [] => none
  | c :: rest =>
    if c = '0' then some (0, rest)
    else if isDigitCh c then
      let r := readDigits rest (c.toNat - 48) 1
      some (r.1, r.2.2)
    else none

/-- JSON number following the first character, already knowing the sign. -/
def readNumber (neg : Bool) (cs : List Char) : Option (ℚ × List Char) :=
  match readIntPart cs with
  | none => none
  | some (ip, rest) =>
    let fracRes : Option (Nat × Nat × List Char) :=
      match rest with
      | '.' :: r =>
        let d := readDigits r 0 0
        if d.2.1 = 0 then none else some (d.1, d.2.1, d.2.2)
      | _ => some (0, 0, rest)
    match fracRes with
    | none => none
    | some (fd, fc, rest2) =>
      let (expNeg, e, rest3, expOk) :=
        match rest2 with
        | 'e' :: r | 'E' :: r =>
          let (sgn, r') :=
            match r with
            | '-' :: r2 => (true, r2)
            | '+' :: r2 => (false, r2)
            | _ => (false, r)
          let d := readDigits r' 0 0
          (sgn, d.1, d.2.2, d.2.1 != 0)
        | _ => (false, 0, rest2, true)
      if expOk = false then none
      else
        let mant : Int := (if neg then -1 else 1) * ((ip * 10 ^ fc + fd : Nat) : Int)
        let q : ℚ :=
          if expNeg then mkRat mant (10 ^ (fc + e))
          else mkRat (mant * ((10 ^ e : Nat) : Int)) (10 ^ fc)
        some (q, rest3)

/-- Hexadecimal digit value. -/
def hexVal (c : Char) : Option Nat :=
  if isDigitCh c then some (c.toNat - 48)
  else if 'a' ≤ c && c ≤ 'f' then some (c.toNat - 87)
  else if 'A' ≤ c && c ≤ 'F' then some (c.toNat - 55)
  else none

/-- JSON string body after the opening quote; fuelled. Returns the decoded
characters and the rest after the closing quote. -/
def readStringBody : Nat → List Char → Option (List Char × List Char)
  | 0, _ => none
  | _ + 1, [] => none
  | fuel + 1, c :: cs =>
    if c = '"' then some ([], cs)
    else if c = '\\' then
      match cs with
      | [] => none
      | e :: cs2 =>
        let dec : Option (Char × List Char) :=
          if e = '"' then some ('"', cs2)
          else if e = '\\' then some ('\\', cs2)
          else if e = '/' then some ('/', cs2)
          else if e = 'b' then some (Char.ofNat 8, cs2)
          else if e = 'f' then some (Char.ofNat 12, cs2)
          else if e = 'n' then some ('\n', cs2)
          else if e = 'r' then some ('\r', cs2)
          else if e = 't' then some ('\t', cs2)
          else if e = 'u' then
            match cs2 with
            | h1 :: h2 :: h3 :: h4 :: cs3 =>
              match hexVal h1, hexVal h2, hexVal h3, hexVal h4 with
              | some a, some b, some c3, some d =>
                some (Char.ofNat (((a * 16 + b) * 16 + c3) * 16 + d), cs3)
              | _, _, _, _ => none
            | _ => none
          else none
        match dec with
        | none => none
        | some (ch, rest) =>
          match readStringBody fuel rest with
          | none => none
          | some (tail, rest2) => some (ch :: tail, rest2)
    else
      match readStringBody fuel cs with
      | none => none
      | some (tail, rest2) => some (c :: tail, rest2)

mutual

/-- One JSON value (fuelled recursive-descent model of `JSON.parse`). -/
def parseVal : Nat → List Char → Option (Jv × List Char)
  | 0, _ => none
  | fuel + 1, cs =>
    match skipJWs cs with
    | [] => none
    | c :: rest =>
      if c = lbrace then
        match skipJWs rest with
        | c2 :: rest2 =>
          if c2 = rbrace then some (Jv.obj [], rest2)
          else parseObjFields fuel (c2 :: rest2) []
        | [] => none
      else if c = '[' then
        match skipJWs rest with
        | c2 :: rest2 =>
          if c2 = ']' then some (Jv.arr [], rest2)
          else parseArrElems fuel (c2 :: rest2) []
        | [] => none
      else if c = '"' then
        match readStringBody (rest.length + 1) rest with
        | some (body, rest2) => some (Jv.str (String.mk body), rest2)
        | none => none
      else if c = '-' then
        match readNumber true rest with
        | some (q, rest2) => some (Jv.num q, rest2)
        | none => none
      else if isDigitCh c then
        match readNumber false (c :: rest) with
        | some (q, rest2) => some (Jv.num q, rest2)
        | none => none
      else if ['t', 'r', 'u', 'e'].isPrefixOf (c :: rest) then
        some (Jv.bool true, (c :: rest).drop 4)
      else if ['f', 'a', 'l', 's', 'e'].isPrefixOf (c :: rest) then
        some (Jv.bool false, (c :: rest).drop 5)
      else if ['n', 'u', 'l', 'l'].isPrefixOf (c :: rest) then
        some (Jv.null, (c :: rest).drop 4)
      else none

/-- Members of a JSON object, positioned at the start of a key. -/
def parseObjFields : Nat → List Char → List (String × Jv) →
    Option (Jv × List Char)
  | 0, _, _ => none
  | fuel + 1, cs, acc =>
    match skipJWs cs with
    | '"' :: rest =>
      match readStringBody (rest.length + 1) rest with
      | none => none
      | some (key, rest2) =>
        match skipJWs rest2 with
        | ':' :: rest3 =>
          match parseVal fuel rest3 with
          | none => none
          | some (v, rest4) =>
            match skipJWs rest4 with
            | ',' :: rest5 =>
              parseObjFields fuel rest5 (acc ++ [(String.mk key, v)])
            | c :: rest5 =>
              if c = rbrace then
                some (Jv.obj (acc ++ [(String.mk key, v)]), rest5)
              else none
            | [] => none
        | _ => none
    | _ => none

/-- Elements of a JSON array, positioned at the start of an element. -/
def parseArrElems : Nat → List Char → List Jv → Option (Jv × List Char)
  | 0, _, _ => none
  | fuel + 1, cs, acc =>
    match parseVal fuel cs with
    | none => none
    | some (v, rest) =>
      match skipJWs rest with
      | ',' :: rest2 => parseArrElems fuel rest2 (acc ++ [v])
      | ']' :: rest2 => some (Jv.arr (acc ++ [v]), rest2)
      | _ => none

end

/-- Model of `JSON.parse`: `none` corresponds to a thrown `SyntaxError`. -/
def parseJson (s : String) : Option Jv :=
  let cs := s.toList
  match parseVal (cs.length + 1) cs with
  | some (v, rest) => if skipJWs rest = [] then some v else none
  | none => none

/-- Last-occurrence field lookup, matching `JSON.parse` duplicate-key
semantics combined with JS property access: `aiData.k` is `undefined`
(`none`) when `aiData` is not an object or lacks the key. -/
def getField (v : Jv) (k : String) : Option Jv :=
  match v with
  | Jv.obj fs => (fs.reverse.find? (fun p => p.1 = k)).map Prod.snd
  | _ => none

/-! ## The fenced-code-block extraction of the Classification Client

`analyzeFeedback` runs
`jsonText.match(/` three backticks `(?:json)?\s*(\{[\s\S]*\})\s*` three
backticks `/)` and, when the regex matches, keeps capture group 1.  The
functions below model that regex's backtracking semantics on character
lists: leftmost starting position; `(?:json)?` is forced (taking `json`
fails only where skipping also fails); `\s*` before `{` is a maximal
whitespace munch; the greedy `[\s\S]*` makes the capture end at the last
`}` that is followed by whitespace and a fence. -/

/-- Three backticks. -/
def fenceMark : List Char := [btick, btick, btick]

/-- The characters of `json`. -/
def jsonWord : List Char := ['j', 's', 'o', 'n']

/-- Does the list start with optional whitespace followed by a fence?
(models the regex tail `\s*` + three backticks). -/
def wsFence (cs : List Char) : Bool :=
  fenceMark.isPrefixOf (cs.dropWhile isWs)

/-- Longest prefix ending in `}` whose remainder starts with `\s*` and a
fence: the landing point of the greedy `[\s\S]*`. -/
def greedyClose : List Char → Option (List Char)
  | [] => none
  | c :: cs =>
    match greedyClose cs with
    | some p => some (c :: p)
    | none => if c = rbrace ∧ wsFence cs then some [c] else none

/-- Match the regex body after the opening fence (and optional `json`):
`\s*` then the capture `(\{[\s\S]*\})` then `\s*` and a closing fence. -/
def fenceBody (cs : List Char) : Option (List Char) :=
  match cs.dropWhile isWs with
  | [] => none
  | c :: rest =>
    if c = lbrace then (greedyClose rest).map (fun p => lbrace :: p)
    else none

/-- Leftmost match of the whole fenced-block regex; returns capture 1. -/
def findFenced : List Char → Option (List Char)
  | [] => none
  | c :: cs =>
    if fenceMark.isPrefixOf (c :: cs) then
      let afterFence := (c :: cs).drop 3
      let body :=
        if jsonWord.isPrefixOf afterFence then afterFence.drop 4 else afterFence
      match fenceBody body with
      | some cap => some cap
      | none => findFenced cs
    else findFenced cs

/-- The extraction step of `analyzeFeedback`:
`let jsonText = text.trim()`, then replace `jsonText` by capture 1 of the
fenced-block regex when it matches. -/
def extractJson (text : String) : String :=
  let t := trimWs text.toList
  match findFenced t with
  | some cap => String.mk cap
  | none => String.mk t

/-! ## MIME-type derivation and content parts of `analyzeFeedback` -/

/-- The characters of `data:`. -/
def dataMark : List Char := ['d', 'a', 't', 'a', ':']

/-- Leftmost match of `/data:([^;]+)/`: scan for `data:` followed by at
least one non-`;` character; capture the maximal run. -/
def findDataCapture : List Char → Option (List Char)
  | [] => none
  | c :: cs =>
    if dataMark.isPrefixOf (c :: cs) then
      let cap := ((c :: cs).drop 5).takeWhile (fun ch => ch ≠ ';')
      if cap = [] then findDataCapture cs else some cap
    else findDataCapture cs

/-- The MIME type `analyzeFeedback` attaches to the image part: default
`image/png`, replaced by capture 1 of `/data:([^;]+)/` when the base64
string starts with `data:` and the regex matches. -/
def deriveMime (screenshotBase64 : String) : String :=
  let cs := screenshotBase64.toList
  if dataMark.isPrefixOf cs then
    match findDataCapture cs with
    | some cap => String.mk cap
    | none => "image/png"
  else "image/png"

/-- The base64 payload sent as `inlineData.data`:
`screenshotBase64.includes(',') ? screenshotBase64.split(',')[1] :
screenshotBase64`. -/
def deriveBase64Data (screenshotBase64 : String) : String :=
  let parts := splitOnChar ',' screenshotBase64.toList
  if parts.length > 1 then String.mk (parts.getD 1 [])
  else screenshotBase64

/-- A content part of the Gemini request. -/
inductive GPart where
  | text (s : String) : GPart
  | inlineData (mimeType : String) (data : String) : GPart

/-- The classification prompt of `analyzeFeedback`, with the user message
interpolated at `"${messageRaw}"`. -/
def promptFor (messageRaw : String) : String :=
  "Analyze this user feedback and classify it. The user is reporting feedback, a bug, feature request, or question.\n\nUser message: \"" ++ messageRaw ++ "\"\n\nExtract:\n1. A concise title (5-8 words)\n2. A short summary (1-2 sentences)\n3. Key details as a list\n4. Category: bug, feature, question, billing, praise, or other\n5. Feature area: which part of the product (e.g. \"export\", \"upload\", \"dashboard\", \"prompts\", \"billing\", \"login\")\n6. Priority: low, medium, or high (high = blocking/urgent, medium = important, low = nice to have)\n7. Steps to reproduce (if bug)\n8. Expected behavior (if bug)\n9. Confidence score (0.0-1.0)\n10. Clarifying questions (only if really needed, max 2)\n\nReturn ONLY valid JSON (no markdown, no explanation):\n\x7b\n  \"title\": \"...\",\n  \"short_summary\": \"...\",\n  \"key_details\": [\"...\", \"...\"],\n  \"suggested_category\": \"bug\"|\"feature\"|\"question\"|\"billing\"|\"praise\"|\"other\",\n  \"suggested_feature_area\": \"...\",\n  \"suggested_priority\": \"low\"|\"medium\"|\"high\",\n  \"steps\": [\"...\", \"...\"],\n  \"expected\": \"...\" or null,\n  \"confidence\": 0.0-1.0,\n  \"clarifying_questions\": [\"...\", \"...\"]\n\x7d"

/-- The content parts `analyzeFeedback` hands to `model.generateContent`:
the text prompt, plus an `inlineData` image part when a screenshot base64
string is provided. -/
def buildParts (messageRaw : String) (screenshotBase64 : Option String) :
    List GPart :=
  match screenshotBase64 with
  | none => [GPart.text (promptFor messageRaw)]
  | some sb =>
    [GPart.text (promptFor messageRaw),
     GPart.inlineData (deriveMime sb) (deriveBase64Data sb)]

/-! ## Validation of the parsed AI reply -/

/-- JS truthiness of a property-access result (`undefined`, `null`, `""`,
`0` and `false` are falsy). -/
def truthy : Option Jv → Bool
  | none => false
  | some Jv.null => false
  | some (Jv.bool b) => b
  | some (Jv.num q) => q != 0
  | some (Jv.str s) => s ≠ ""
  | some (Jv.arr _) => true
  | some (Jv.obj _) => true

/-- `Array.isArray` on a property-access result. -/
def isArrVal : Option Jv → Bool
  | some (Jv.arr _) => true
  | _ => false

/-- JS `list.includes(x)` with string-literal lists and `===` semantics:
only an exactly equal string member counts. -/
def strIncludes (l : List String) : Option Jv → Bool
  | some (Jv.str s) => s ∈ l
  | _ => false

/-- The closed category enumeration checked by `analyzeFeedback`. -/
def categoryEnum : List String :=
  ["bug", "feature", "question", "billing", "praise", "other"]

/-- The closed priority enumeration checked by `analyzeFeedback`. -/
def priorityEnum : List String := ["low", "medium", "high"]

/-- The structure validation of `analyzeFeedback`
(the negated `if (!aiData.title || ...)` guard). -/
def validateAI (aiData : Jv) : Bool :=
  truthy (getField aiData "title") &&
  truthy (getField aiData "short_summary") &&
  isArrVal (getField aiData "key_details") &&
  strIncludes categoryEnum (getField aiData "suggested_category") &&
  truthy (getField aiData "suggested_feature_area") &&
  strIncludes priorityEnum (getField aiData "suggested_priority")

/-- The Classification Client `analyzeFeedback`.  The network interaction
(`model.generateContent` followed by `result.response.text()`) is an
oracle input `net`: `Except.error` models a thrown network error (caught,
yielding `null`), `Except.ok text` the raw model reply.  A `JSON.parse`
failure is also caught.  `none` models the JS `null` result. -/
def analyzeFeedback (messageRaw : String) (screenshotBase64 : Option String)
    (geminiApiKey : String) (net : Except Unit String) : Option Jv :=
  if geminiApiKey = "" then none
  else
    let _parts := buildParts messageRaw screenshotBase64
    match net with
    | Except.error _ => none
    | Except.ok text =>
      if text = "" then none
      else
        let jsonText := extractJson text
        match parseJson jsonText with
        | none => none
        | some aiData => if validateAI aiData then some aiData else none

/-! ## Rate limiter (`checkRateLimit` in `route.ts`) -/

/-- One entry of `rateLimitMap`. -/
structure RateEntry where
  count : Nat
  resetAt : Nat

/-- The in-memory `rateLimitMap`, keyed by client identity. -/
def RLState : Type := String → Option RateEntry

/-- `rateLimitMap.set ip entry`. -/
def rlSet (s : RLState) (ip : String) (e : RateEntry) : RLState :=
  fun k => if k = ip then some e else s k

/-- `RATE_LIMIT = 10`. -/
def RATE_LIMIT : Nat := 10

/-- `RATE_WINDOW = 60 * 1000` milliseconds. -/
def RATE_WINDOW : Nat := 60 * 1000

/-- `checkRateLimit(ip)`, with `Date.now()` passed as `now`: returns the
admit decision and the updated map. -/
def checkRateLimit (ip : String) (now : Nat) (s : RLState) :
    Bool × RLState :=
  match s ip with
  | none => (true, rlSet s ip ⟨1, now + RATE_WINDOW⟩)
  | some entry =>
    if now > entry.resetAt then (true, rlSet s ip ⟨1, now + RATE_WINDOW⟩)
    else if entry.count ≥ RATE_LIMIT then (false, s)
    else (true, rlSet s ip ⟨entry.count + 1, entry.resetAt⟩)

/-- A sequence of `checkRateLimit` calls for one identity at the given
times: the list of admit decisions and the final map. -/
def rlRun (ip : String) (ts : List Nat) (s : RLState) :
    List Bool × RLState :=
  match ts with
  | [] => ([], s)
  | t :: ts' =>
    let r := checkRateLimit ip t s
    let rest := rlRun ip ts' r.2
    (r.1 :: rest.1, rest.2)

/-! ## The `POST` handler (`route.ts`) -/

/-- The transport metadata and multipart fields of a request.  `none`
models an absent header / form field (`headers.get` and `formData.get`
returning `null`). -/
structure Req where
  xForwardedFor : Option String
  xRealIp : Option String
  xPageUrl : Option String
  referer : Option String
  userAgent : Option String
  website : Option String
  message : Option String
  screenshot : Option (List Nat)
  project : Option String

/-- Environment configuration relevant to the handler's control flow. -/
structure Env where
  geminiKey : Option String

/-- Outcomes of the external collaborators and other ambient inputs:
`now` is `Date.now()`, `rand` the random filename infix, `uploadOk`
whether the Supabase storage upload succeeds, `publicUrl` the public URL
the storage returns, `net` the Gemini call outcome and `insert` the
database insertion outcome (`Except.ok id`). -/
structure Oracle where
  now : Nat
  rand : String
  uploadOk : Bool
  publicUrl : String
  net : Except Unit String
  insert : Except Unit String

/-- The row handed to `supabaseAdmin.from('feedback').insert(...)`. -/
structure FeedbackRecord where
  page_url : String
  user_agent : Option String
  message_raw : String
  screenshot_url : Option String
  ai_data : Option Jv
  project_id : Option String
  status : String

/-- The fields handed to `sendNotificationEmail`. -/
structure NotifArgs where
  id : String
  message_raw : String
  page_url : String
  ai_data : Option Jv

/-- An HTTP response: status code and JSON body
(`NextResponse.json(body, { status })`; a missing `ai_data : Option Jv`
serializes as JSON `null`). -/
structure HttpResponse where
  status : Nat
  body : Jv

/-- Everything observable about one `POST` run: the response, the updated
rate-limit map, and the interactions with the collaborators (`none`
meaning the collaborator was never invoked). -/
structure POSTResult where
  response : HttpResponse
  rl : RLState
  uploaded : Option (String × List Nat × String)
  classifiedParts : Option (List GPart)
  insertedArg : Option FeedbackRecord
  persisted : Bool
  notified : Option NotifArgs

/-- Client identity derivation:
`request.headers.get('x-forwarded-for')?.split(',')[0] ||
request.headers.get('x-real-ip') || 'unknown'`. -/
def deriveIp (r : Req) : String :=
  let fwdFirst : Option String :=
    r.xForwardedFor.map (fun s =>
      String.mk ((splitOnChar ',' s.toList).headD []))
  jsOrStr fwdFirst (jsOrStr r.xRealIp "unknown")

/-- `request.headers.get('x-page-url') || request.headers.get('referer')
|| 'unknown'`. -/
def derivePageUrl (r : Req) : String :=
  jsOrStr r.xPageUrl (jsOrStr r.referer "unknown")

/-- `request.headers.get('user-agent') || null`. -/
def deriveUA (r : Req) : Option String := jsOrNull r.userAgent

/-- The honeypot test: `honeypot && honeypot.trim().length > 0`. -/
def isBot (website : Option String) : Bool :=
  match website with
  | none => false
  | some s => s ≠ "" && jsTrim s ≠ ""

/-- The validation test `!messageRaw?.trim()` (message absent, empty or
whitespace-only). -/
def msgMissing : Option String → Bool
  | none => true
  | some m => jsTrim m = ""

/-- The screenshot actually processed: present and of positive size
(`screenshot && screenshot.size > 0`). -/
def shotBytes (r : Req) : Option (List Nat) :=
  match r.screenshot with
  | some bytes => if bytes.length > 0 then some bytes else none
  | none => none

/-- Base64 alphabet. -/
def b64Alphabet : String :=
  "ABCDEFGHIJKLMNOPQRSTUVWXYZabcdefghijklmnopqrstuvwxyz0123456789+/"

/-- Character of the base64 alphabet at the given index. -/
def b64Char (n : Nat) : Char := b64Alphabet.toList.getD n 'A'

/-- `Buffer.prototype.toString('base64')` on a byte list. -/
def base64Encode : List Nat → String
  | [] => ""
  | [a] =>
    let a := a % 256
    String.mk [b64Char (a / 4), b64Char (a % 4 * 16)] ++ "=="
  | [a, b] =>
    let a := a % 256
    let b := b % 256
    String.mk [b64Char (a / 4), b64Char (a % 4 * 16 + b / 16),
               b64Char (b % 16 * 4)] ++ "="
  | a :: b :: c :: rest =>
    let a := a % 256
    let b := b % 256
    let c := c % 256
    String.mk [b64Char (a / 4), b64Char (a % 4 * 16 + b / 16),
               b64Char (b % 16 * 4 + c / 64), b64Char (c % 64)] ++
      base64Encode rest

/-- The in-memory base64 data URL retained for the classification call:
`'data:image/png;base64,' + buffer.toString('base64')`. -/
def shotB64 (r : Req) : Option String :=
  (shotBytes r).map (fun b => "data:image/png;base64," ++ base64Encode b)

/-- The `screenshot_url` column value: the storage public URL when the
upload succeeded, otherwise `null`. -/
def shotUrl (r : Req) (ext : Oracle) : Option String :=
  match shotBytes r with
  | some _ => if ext.uploadOk then some ext.publicUrl else none
  | none => none

/-- The generated storage filename
`${Date.now()}-${Math.random().toString(36).substring(7)}.png`. -/
def shotFilename (ext : Oracle) : String :=
  toString ext.now ++ "-" ++ ext.rand ++ ".png"

/-- The `ai_data` value computed by the handler: `null` unless a Gemini
key is configured (JS truthiness), otherwise the `analyzeFeedback`
result. -/
def postAiData (r : Req) (env : Env) (ext : Oracle) (messageRaw : String) :
    Option Jv :=
  match env.geminiKey with
  | some k =>
    if k = "" then none
    else analyzeFeedback messageRaw (shotB64 r) k ext.net
  | none => none

/-- The content parts handed to `model.generateContent` by the handler's
classification call, when one happens. -/
def postParts (r : Req) (env : Env) (messageRaw : String) :
    Option (List GPart) :=
  match env.geminiKey with
  | some k =>
    if k = "" then none else some (buildParts messageRaw (shotB64 r))
  | none => none

/-- The `POST` handler of `route.ts`.  Sequencing follows the source:
rate limiting, honeypot, message validation, screenshot upload (best
effort), classification (failure-tolerant), insertion (fatal on error),
fire-and-forget notification, response. -/
def POST (r : Req) (env : Env) (ext : Oracle) (s : RLState) : POSTResult :=
  let ip := deriveIp r
  let rl := checkRateLimit ip ext.now s
  if rl.1 = false then
    { response := ⟨429, Jv.obj [("error", Jv.str "Too many requests")]⟩,
      rl := rl.2, uploaded := none, classifiedParts := none,
      insertedArg := none, persisted := false, notified := none }
  else if isBot r.website then
    { response := ⟨200, Jv.obj [("id", Jv.str "fake-id"),
                                ("message", Jv.str "Feedback sent")]⟩,
      rl := rl.2, uploaded := none, classifiedParts := none,
      insertedArg := none, persisted := false, notified := none }
  else
    match r.message with
    | none =>
      { response := ⟨400, Jv.obj [("error", Jv.str "Message is required")]⟩,
        rl := rl.2, uploaded := none, classifiedParts := none,
        insertedArg := none, persisted := false, notified := none }
    | some messageRaw =>
      if jsTrim messageRaw = "" then
        { response := ⟨400, Jv.obj [("error", Jv.str "Message is required")]⟩,
          rl := rl.2, uploaded := none, classifiedParts := none,
          insertedArg := none, persisted := false, notified := none }
      else
        let pageUrl := derivePageUrl r
        let ua := deriveUA r
        let projectId := jsOrNull r.project
        let shot := shotBytes r
        let uploaded := shot.map (fun bytes =>
          (shotFilename ext, bytes, "image/png"))
        let screenshotUrl := shotUrl r ext
        let aiData := postAiData r env ext messageRaw
        let parts := postParts r env messageRaw
        let record : FeedbackRecord :=
          { page_url := pageUrl, user_agent := ua,
            message_raw := messageRaw, screenshot_url := screenshotUrl,
            ai_data := aiData, project_id := projectId, status := "new" }
        match ext.insert with
        | Except.error _ =>
          { response := ⟨500,
              Jv.obj [("error", Jv.str "Failed to save feedback")]⟩,
            rl := rl.2, uploaded := uploaded, classifiedParts := parts,
            insertedArg := some record, persisted := false,
            notified := none }
        | Except.ok id =>
          { response := ⟨200,
              Jv.obj [("id", Jv.str id),
                      ("ai_data", aiData.getD Jv.null),
                      ("message", Jv.str "Feedback received")]⟩,
            rl := rl.2, uploaded := uploaded, classifiedParts := parts,
            insertedArg := some record, persisted := true,
            notified := some ⟨id, messageRaw, pageUrl, aiData⟩ }

/-! ## Auxiliary definitions for stating the claims -/

/-- Does a character list contain a three-backtick fence anywhere? -/
def containsFence : List Char → Bool
  | [] => false
  | c :: cs => fenceMark.isPrefixOf (c :: cs) || containsFence cs

/-- Wrap a model reply in a markdown fenced code block, with or without
the `json` language tag. -/
def fenceWrap (useJson : Bool) (j : String) : String :=
  (if useJson then "```json\n" else "```\n") ++ j ++ "\n```"

/-! ## Concrete inputs used by witnesses and counterexamples -/

/-- The empty rate-limit map. -/
def rlEmpty : RLState := fun _ => none

/-- An environment with no Gemini key configured. -/
def envNoKey : Env := ⟨none⟩

/-- An environment with a Gemini key configured. -/
def envKey : Env := ⟨some "test-key"⟩

/-- Baseline collaborator outcomes: upload succeeds, the Gemini call
fails, the insertion succeeds. -/
def oraBase : Oracle :=
  ⟨1000, "rnd", true, "http://cdn.example/shot.png", Except.error (),
   Except.ok "row-1"⟩

/-- Collaborator outcomes with a failing database insertion. -/
def oraInsertFail : Oracle :=
  ⟨1000, "rnd", true, "http://cdn.example/shot.png", Except.error (),
   Except.error ()⟩

/-- Collaborator outcomes with a failing screenshot upload. -/
def oraUploadFail : Oracle :=
  ⟨1000, "rnd", false, "http://cdn.example/shot.png", Except.error (),
   Except.ok "row-1"⟩

/-- A honeypot-tripping request (non-empty `website` field). -/
def c1BotReq : Req :=
  ⟨none, none, none, none, none, some "spam", some "hello", none, none⟩

/-- A genuine request with a message and nothing else. -/
def c1GenuineReq : Req :=
  ⟨none, none, none, none, none, none, some "hello", none, none⟩

/-- A raw model reply whose fields pass the code's validation yet violate
the §3 schema: `title` is the number `5`, `confidence` is `5`, and
`steps`, `expected` and `clarifying_questions` are absent. -/
def c2Raw : String :=
  "\x7b\"title\": 5, \"short_summary\": \"s\", \"key_details\": [], \"suggested_category\": \"bug\", \"suggested_feature_area\": \"ui\", \"suggested_priority\": \"low\", \"confidence\": 5\x7d"

/-- A request whose `message` is present but classified nowhere because
the honeypot fires first: non-empty `website`, empty `message`. -/
def c6Req : Req :=
  ⟨none, none, none, none, none, some "i-am-a-bot", some "", none, none⟩

/-- A request with an absent honeypot and a whitespace-only message. -/
def c6WsReq : Req :=
  ⟨none, none, none, none, none, none, some "  \t ", none, none⟩

/-- A JSON object text containing a backtick fence inside a string
literal. -/
def c7J : String := "\x7b\"a\": \"``` \x7b\x7d ```\"\x7d"

/-- A fence-free JSON object text. -/
def c7Plain : String := "\x7b\"ok\": true\x7d"

/-- A request carrying a message and a three-byte screenshot. -/
def c8Req : Req :=
  ⟨none, none, none, none, none, none, some "hello", some [1, 2, 3], none⟩

/-- A honeypot-tripping request used against an at-limit identity. -/
def c9BotReq : Req :=
  ⟨none, none, none, none, none, some "bot-field", some "hi", none, none⟩

/-- A rate-limit map in which the `unknown` identity has exhausted its
budget for a window that is still open at time 1000. -/
def c9AtLimit : RLState :=
  fun k => if k = "unknown" then some ⟨10, 5000⟩ else none

/-- A request used for C5's witness. -/
def c5Req : Req :=
  ⟨some "9.9.9.9", none, some "http://app.example/page", none,
   some "agent", none, some "it broke", none, some "proj"⟩

/-! ## Theorems -/

/-- Case analysis of a single `checkRateLimit` call. -/
theorem checkRateLimit_cases (ip : String) (now : Nat) (s : RLState) :
    (s ip = none →
      checkRateLimit ip now s =
        (true, rlSet s ip ⟨1, now + RATE_WINDOW⟩)) ∧
    (∀ e, s ip = some e → now > e.resetAt →
      checkRateLimit ip now s =
        (true, rlSet s ip ⟨1, now + RATE_WINDOW⟩)) ∧
    (∀ e, s ip = some e → ¬ now > e.resetAt → RATE_LIMIT ≤ e.count →
      checkRateLimit ip now s = (false, s)) ∧
    (∀ e, s ip = some e → ¬ now > e.resetAt → e.count < RATE_LIMIT →
      checkRateLimit ip now s =
        (true, rlSet s ip ⟨e.count + 1, e.resetAt⟩)) := by
  refine ⟨fun h => by simp [checkRateLimit, h],
          fun e he hpast => by simp [checkRateLimit, he, hpast],
          fun e he hpast hge => ?_,
          fun e he hpast hlt => ?_⟩
  · simp [checkRateLimit, he, hpast, hge]
  · simp [checkRateLimit, he, hpast, Nat.not_le_of_lt hlt]

/-- C3: for every identity, a `checkRateLimit` call follows fixed-window
counting exactly: with no entry, or with `now` past `resetAt`, the entry
is set to `(count = 1, resetAt = now + RATE_WINDOW)` and the call admits;
otherwise an entry at the limit causes rejection with no mutation, and an
entry under the limit is incremented and the call admits. -/
theorem checkRateLimit_fixed_window (ip : String) (now : Nat)
    (s : RLState) :
    (s ip = none →
      checkRateLimit ip now s =
        (true, rlSet s ip ⟨1, now + RATE_WINDOW⟩)) ∧
    (∀ e, s ip = some e → now > e.resetAt →
      checkRateLimit ip now s =
        (true, rlSet s ip ⟨1, now + RATE_WINDOW⟩)) ∧
    (∀ e, s ip = some e → ¬ now > e.resetAt → RATE_LIMIT ≤ e.count →
      checkRateLimit ip now s = (false, s)) ∧
    (∀ e, s ip = some e → ¬ now > e.resetAt → e.count < RATE_LIMIT →
      checkRateLimit ip now s =
        (true, rlSet s ip ⟨e.count + 1, e.resetAt⟩)) :=
  checkRateLimit_cases ip now s

/-- Witness for C3: a call with no prior entry. -/
theorem checkRateLimit_fixed_window_witness :
    checkRateLimit "1.2.3.4" 5 rlEmpty =
      (true, rlSet rlEmpty "1.2.3.4" ⟨1, 5 + RATE_WINDOW⟩) :=
  (checkRateLimit_fixed_window "1.2.3.4" 5 rlEmpty).1 rfl

/-- Within an open window (every call time at most `t0 + RATE_WINDOW`, the
entry holding `resetAt = t0 + RATE_WINDOW`), the admit decisions are
determined by the running count: call `i` (0-based) admits iff
`c + i < RATE_LIMIT`. -/
theorem rlRun_inWindow (ip : String) (t0 : Nat) (ts : List Nat) :
    ∀ (c : Nat) (s : RLState), s ip = some ⟨c, t0 + RATE_WINDOW⟩ →
      (∀ t ∈ ts, t ≤ t0 + RATE_WINDOW) →
      (rlRun ip ts s).1 =
        (List.range ts.length).map (fun i => decide (c + i < RATE_LIMIT)) := by
  induction ts with
  | nil => intro c s _ _; simp [rlRun]
  | cons t ts ih =>
    intro c s hs hts
    have ht : ¬ t > t0 + RATE_WINDOW :=
      Nat.not_lt.2 (hts t (List.mem_cons_self t ts))
    have hts' : ∀ u ∈ ts, u ≤ t0 + RATE_WINDOW :=
      fun u hu => hts u (List.mem_cons_of_mem t hu)
    rw [List.length_cons, List.range_succ_eq_map, List.map_cons,
        List.map_map]
    by_cases hc : c < RATE_LIMIT
    · have hstep : checkRateLimit ip t s =
          (true, rlSet s ip ⟨c + 1, t0 + RATE_WINDOW⟩) := by
        simp [checkRateLimit, hs, ht, Nat.not_le_of_lt hc]
      have hs' : (rlSet s ip ⟨c + 1, t0 + RATE_WINDOW⟩) ip =
          some ⟨c + 1, t0 + RATE_WINDOW⟩ := by simp [rlSet]
      simp only [rlRun, hstep]
      rw [ih (c + 1) _ hs' hts']
      refine congrArg₂ _ (by simp [hc]) (List.map_congr_left ?_)
      intro i _
      simp only [Function.comp]
      exact decide_eq_decide.2 (by omega)
    · have hstep : checkRateLimit ip t s = (false, s) := by
        simp [checkRateLimit, hs, ht, Nat.le_of_not_lt hc]
      simp only [rlRun, hstep]
      rw [ih c s hs hts']
      refine congrArg₂ _ (by simp [hc]) (List.map_congr_left ?_)
      intro i _
      simp only [Function.comp]
      exact decide_eq_decide.2 (by omega)

/-- The number of admissions among calls decided by `c + i < RATE_LIMIT`
is at most `RATE_LIMIT - c`. -/
theorem count_admits_le (c n : Nat) :
    ((List.range n).map (fun i => decide (c + i < RATE_LIMIT))).count true ≤
      RATE_LIMIT - c := by
  induction n with
  | zero => simp
  | succ n ih =>
    rw [List.range_succ, List.map_append, List.count_append]
    have hsingle : (List.map (fun i => decide (c + i < RATE_LIMIT)) [n]).count
        true = if c + n < RATE_LIMIT then 1 else 0 := by
      by_cases h : c + n < RATE_LIMIT <;> simp [h]
    rw [hsingle]
    by_cases h : c + n < RATE_LIMIT
    · have hlen : ((List.range n).map
          (fun i => decide (c + i < RATE_LIMIT))).count true ≤ n := by
        have h1 := List.count_le_length
          (a := true)
          (l := (List.range n).map (fun i => decide (c + i < RATE_LIMIT)))
        simpa using h1
      rw [if_pos h]
      omega
    · rw [if_neg h]
      omega

/-- C4: for every identity and every sequence of requests whose times all
lie within the window opened by the first request (which finds no live
entry), at most `RATE_LIMIT` of them are admitted, and the
`(RATE_LIMIT + 1)`-th request of the window is rejected. -/
theorem rateLimit_window_bound (ip : String) (t0 : Nat) (ts : List Nat)
    (s : RLState)
    (hfresh : ∀ e, s ip = some e → t0 > e.resetAt)
    (hts : ∀ t ∈ ts, t ≤ t0 + RATE_WINDOW) :
    (rlRun ip (t0 :: ts) s).1.count true ≤ RATE_LIMIT ∧
    (RATE_LIMIT ≤ ts.length →
      (rlRun ip (t0 :: ts) s).1[RATE_LIMIT]? = some false) := by
  have hfirst : checkRateLimit ip t0 s =
      (true, rlSet s ip ⟨1, t0 + RATE_WINDOW⟩) := by
    cases h : s ip with
    | none => simp [checkRateLimit, h]
    | some e => simp [checkRateLimit, h, hfresh e h]
  have hs1 : (rlSet s ip ⟨1, t0 + RATE_WINDOW⟩) ip =
      some ⟨1, t0 + RATE_WINDOW⟩ := by simp [rlSet]
  have htail := rlRun_inWindow ip t0 ts 1 _ hs1 hts
  have hrunEq : (rlRun ip (t0 :: ts) s).1 =
      true :: (List.range ts.length).map
        (fun i => decide (1 + i < RATE_LIMIT)) := by
    simp only [rlRun, hfirst]
    exact congrArg _ htail
  constructor
  · rw [hrunEq]
    have h2 := count_admits_le 1 ts.length
    have hc : (true :: (List.range ts.length).map
        (fun i => decide (1 + i < RATE_LIMIT))).count true =
        ((List.range ts.length).map
          (fun i => decide (1 + i < RATE_LIMIT))).count true + 1 := by
      simp [List.count_cons]
    rw [hc]
    have h3 : RATE_LIMIT - 1 + 1 = RATE_LIMIT := by decide
    omega
  · intro hlen
    rw [hrunEq]
    have h9 : RATE_LIMIT = 9 + 1 := by decide
    rw [h9, List.getElem?_cons_succ, List.getElem?_map,
        List.getElem?_range (by omega : 9 < ts.length)]
    decide

/-- Witness for C4: eleven immediate requests from a fresh identity; at
most ten are admitted and the eleventh decision is a rejection. -/
theorem rateLimit_window_bound_witness :
    (rlRun "9.9.9.9" (0 :: List.replicate 10 0) rlEmpty).1.count true ≤
      RATE_LIMIT ∧
    (RATE_LIMIT ≤ (List.replicate 10 0).length →
      (rlRun "9.9.9.9" (0 :: List.replicate 10 0)
        rlEmpty).1[RATE_LIMIT]? = some false) :=
  rateLimit_window_bound "9.9.9.9" 0 (List.replicate 10 0) rlEmpty
    (fun e h => by simp [rlEmpty] at h)
    (fun t ht => by
      have := List.eq_of_mem_replicate ht
      omega)

/-- C1 (amended): a request whose honeypot field is non-empty after
trimming, once admitted by the rate limiter, yields a 200 response whose
body is exactly `{id: "fake-id", message: "Feedback sent"}`, with no
upload, no classification, no insertion and no notification; the body
carries an `id` field like a genuine accept but carries no `ai_data`
field and a different `message` string, so it is not of the same JSON
shape as a genuine `Accepted` response. -/
theorem honeypot_silent_success (r : Req) (env : Env) (ext : Oracle)
    (s : RLState)
    (hrl : (checkRateLimit (deriveIp r) ext.now s).1 = true)
    (hbot : isBot r.website = true) :
    POST r env ext s =
      { response := ⟨200, Jv.obj [("id", Jv.str "fake-id"),
                                  ("message", Jv.str "Feedback sent")]⟩,
        rl := (checkRateLimit (deriveIp r) ext.now s).2,
        uploaded := none, classifiedParts := none,
        insertedArg := none, persisted := false, notified := none } ∧
    getField (POST r env ext s).response.body "ai_data" = none := by
  have hPost : POST r env ext s =
      { response := ⟨200, Jv.obj [("id", Jv.str "fake-id"),
                                  ("message", Jv.str "Feedback sent")]⟩,
        rl := (checkRateLimit (deriveIp r) ext.now s).2,
        uploaded := none, classifiedParts := none,
        insertedArg := none, persisted := false, notified := none } := by
    unfold POST
    simp [hrl, hbot]
  refine ⟨hPost, ?_⟩
  rw [hPost]
  rfl

/-- Witness for C1's amended theorem at a concrete bot submission. -/
theorem honeypot_silent_success_witness :
    POST c1BotReq envNoKey oraBase rlEmpty =
      { response := ⟨200, Jv.obj [("id", Jv.str "fake-id"),
                                  ("message", Jv.str "Feedback sent")]⟩,
        rl := (checkRateLimit (deriveIp c1BotReq) oraBase.now rlEmpty).2,
        uploaded := none, classifiedParts := none,
        insertedArg := none, persisted := false, notified := none } ∧
    getField (POST c1BotReq envNoKey oraBase rlEmpty).response.body
      "ai_data" = none :=
  honeypot_silent_success c1BotReq envNoKey oraBase rlEmpty rfl rfl

/-- C1 counterexample: the synthetic honeypot response does not have the
same JSON shape as a genuine accept — it lacks the `ai_data` field (and
its `message` string differs), so a caller can distinguish the two. -/
theorem honeypot_shape_counterexample :
    isBot c1BotReq.website = true ∧
    (POST c1BotReq envNoKey oraBase rlEmpty).response.status = 200 ∧
    (POST c1GenuineReq envNoKey oraBase rlEmpty).response.status = 200 ∧
    getField (POST c1BotReq envNoKey oraBase rlEmpty).response.body
      "ai_data" = none ∧
    getField (POST c1GenuineReq envNoKey oraBase rlEmpty).response.body
      "ai_data" = some Jv.null ∧
    getField (POST c1BotReq envNoKey oraBase rlEmpty).response.body
      "message" = some (Jv.str "Feedback sent") ∧
    getField (POST c1GenuineReq envNoKey oraBase rlEmpty).response.body
      "message" = some (Jv.str "Feedback received") :=
  ⟨rfl, rfl, rfl, rfl, rfl, rfl, rfl⟩

/-- C6 (amended): a submission whose message is absent, empty or
whitespace-only is rejected with a 400 and a `Message is required` body —
provided the honeypot field is empty and the rate limiter admits the
request; with a non-empty honeypot field the honeypot branch answers
first (see the counterexample). -/
theorem emptyMessage_rejected (r : Req) (env : Env) (ext : Oracle)
    (s : RLState)
    (hrl : (checkRateLimit (deriveIp r) ext.now s).1 = true)
    (hbot : isBot r.website = false)
    (hmsg : msgMissing r.message = true) :
    (POST r env ext s).response.status = 400 ∧
    (POST r env ext s).response.body =
      Jv.obj [("error", Jv.str "Message is required")] ∧
    (POST r env ext s).insertedArg = none ∧
    (POST r env ext s).notified = none := by
  have hPost : POST r env ext s =
      { response := ⟨400, Jv.obj [("error", Jv.str "Message is required")]⟩,
        rl := (checkRateLimit (deriveIp r) ext.now s).2,
        uploaded := none, classifiedParts := none,
        insertedArg := none, persisted := false, notified := none } := by
    unfold POST
    cases hm : r.message with
    | none => simp [hrl, hbot, hm]
    | some m =>
      rw [hm] at hmsg
      simp only [msgMissing] at hmsg
      have hmsg' : jsTrim m = "" := of_decide_eq_true hmsg
      simp [hrl, hbot, hm, hmsg']
  rw [hPost]
  exact ⟨rfl, rfl, rfl, rfl⟩

/-- Witness for C6's amended theorem: a whitespace-only message with an
empty honeypot is answered with a 400. -/
theorem emptyMessage_rejected_witness :
    (POST c6WsReq envNoKey oraBase rlEmpty).response.status = 400 ∧
    (POST c6WsReq envNoKey oraBase rlEmpty).response.body =
      Jv.obj [("error", Jv.str "Message is required")] ∧
    (POST c6WsReq envNoKey oraBase rlEmpty).insertedArg = none ∧
    (POST c6WsReq envNoKey oraBase rlEmpty).notified = none :=
  emptyMessage_rejected c6WsReq envNoKey oraBase rlEmpty rfl rfl rfl

/-- C6 counterexample: an empty message is *not* always answered with a
400 — when the honeypot field is also non-empty, the honeypot branch
returns a 200 before message validation runs, so the rejection is not
independent of the other fields. -/
theorem emptyMessage_counterexample :
    c6Req.message = some "" ∧
    jsTrim "" = "" ∧
    (POST c6Req envNoKey oraBase rlEmpty).response.status = 200 ∧
    ¬ (POST c6Req envNoKey oraBase rlEmpty).response.status = 400 := by
  refine ⟨rfl, rfl, rfl, ?_⟩
  intro h
  have h200 : (POST c6Req envNoKey oraBase rlEmpty).response.status = 200 :=
    rfl
  rw [h200] at h
  exact absurd h (by decide)

/-- C9: the honeypot path still runs the rate limiter first — the
rate-limit map after a bot submission is exactly the post-`checkRateLimit`
map (so the entry is created or incremented even though nothing else
happens), an admitted bot submission gets the synthetic 200 with no
insertion, and a bot submission from an identity already at the limit in
an open window gets a 429, not the synthetic 200. -/
theorem honeypot_consumes_rate_budget (r : Req) (env : Env) (ext : Oracle)
    (s : RLState)
    (hbot : isBot r.website = true) :
    (POST r env ext s).rl = (checkRateLimit (deriveIp r) ext.now s).2 ∧
    (s (deriveIp r) = none →
      (POST r env ext s).rl (deriveIp r) =
        some ⟨1, ext.now + RATE_WINDOW⟩) ∧
    ((checkRateLimit (deriveIp r) ext.now s).1 = true →
      (POST r env ext s).response.status = 200 ∧
      (POST r env ext s).insertedArg = none ∧
      (POST r env ext s).notified = none) ∧
    (∀ e, s (deriveIp r) = some e → ¬ ext.now > e.resetAt →
      RATE_LIMIT ≤ e.count →
      (POST r env ext s).response.status = 429 ∧
      (POST r env ext s).rl = s) := by
  by_cases hrl : (checkRateLimit (deriveIp r) ext.now s).1 = true
  · have hPost : POST r env ext s =
        { response := ⟨200, Jv.obj [("id", Jv.str "fake-id"),
                                    ("message", Jv.str "Feedback sent")]⟩,
          rl := (checkRateLimit (deriveIp r) ext.now s).2,
          uploaded := none, classifiedParts := none,
          insertedArg := none, persisted := false, notified := none } := by
      unfold POST
      simp [hrl, hbot]
    refine ⟨by rw [hPost], ?_, fun _ => by rw [hPost]; exact ⟨rfl, rfl, rfl⟩,
            ?_⟩
    · intro hnone
      rw [hPost]
      have := (checkRateLimit_cases (deriveIp r) ext.now s).1 hnone
      rw [this]
      simp [rlSet]
    · intro e he hpast hge
      have := ((checkRateLimit_cases (deriveIp r) ext.now
        s).2.2.1) e he hpast hge
      rw [this] at hrl
      exact Bool.noConfusion hrl
  · have hfalse : (checkRateLimit (deriveIp r) ext.now s).1 = false := by
      simpa using hrl
    have hPost : POST r env ext s =
        { response := ⟨429, Jv.obj [("error", Jv.str "Too many requests")]⟩,
          rl := (checkRateLimit (deriveIp r) ext.now s).2,
          uploaded := none, classifiedParts := none,
          insertedArg := none, persisted := false, notified := none } := by
      unfold POST
      simp [hfalse]
    refine ⟨by rw [hPost], ?_, fun h => absurd h hrl, ?_⟩
    · intro hnone
      have := (checkRateLimit_cases (deriveIp r) ext.now s).1 hnone
      rw [this] at hfalse
      exact Bool.noConfusion hfalse
    · intro e he hpast hge
      have heq := ((checkRateLimit_cases (deriveIp r) ext.now
        s).2.2.1) e he hpast hge
      rw [hPost, heq]
      exact ⟨rfl, rfl⟩

/-- Witness for C9: a bot submission from the `unknown` identity that is
already at the limit receives a 429 and mutates nothing. -/
theorem honeypot_consumes_rate_budget_witness :
    (POST c9BotReq envNoKey oraBase c9AtLimit).response.status = 429 ∧
    (POST c9BotReq envNoKey oraBase c9AtLimit).rl = c9AtLimit :=
  (honeypot_consumes_rate_budget c9BotReq envNoKey oraBase c9AtLimit
    rfl).2.2.2 ⟨10, 5000⟩ rfl (by decide) (by decide)

/-- Unfolding of `POST` on the accept path when the insertion fails. -/
theorem POST_accept_err (r : Req) (env : Env) (ext : Oracle) (s : RLState)
    (m : String) (u : Unit)
    (hrl : (checkRateLimit (deriveIp r) ext.now s).1 = true)
    (hbot : isBot r.website = false)
    (hm : r.message = some m) (hm' : ¬ jsTrim m = "")
    (hins : ext.insert = Except.error u) :
    POST r env ext s =
      { response := ⟨500,
          Jv.obj [("error", Jv.str "Failed to save feedback")]⟩,
        rl := (checkRateLimit (deriveIp r) ext.now s).2,
        uploaded := (shotBytes r).map
          (fun bytes => (shotFilename ext, bytes, "image/png")),
        classifiedParts := postParts r env m,
        insertedArg := some ⟨derivePageUrl r, deriveUA r, m, shotUrl r ext,
          postAiData r env ext m, jsOrNull r.project, "new"⟩,
        persisted := false, notified := none } := by
  unfold POST
  simp [hrl, hbot, hm, hm', hins]

/-- Unfolding of `POST` on the accept path when the insertion succeeds. -/
theorem POST_accept_ok (r : Req) (env : Env) (ext : Oracle) (s : RLState)
    (m : String) (id : String)
    (hrl : (checkRateLimit (deriveIp r) ext.now s).1 = true)
    (hbot : isBot r.website = false)
    (hm : r.message = some m) (hm' : ¬ jsTrim m = "")
    (hins : ext.insert = Except.ok id) :
    POST r env ext s =
      { response := ⟨200,
          Jv.obj [("id", Jv.str id),
                  ("ai_data", (postAiData r env ext m).getD Jv.null),
                  ("message", Jv.str "Feedback received")]⟩,
        rl := (checkRateLimit (deriveIp r) ext.now s).2,
        uploaded := (shotBytes r).map
          (fun bytes => (shotFilename ext, bytes, "image/png")),
        classifiedParts := postParts r env m,
        insertedArg := some ⟨derivePageUrl r, deriveUA r, m, shotUrl r ext,
          postAiData r env ext m, jsOrNull r.project, "new"⟩,
        persisted := true,
        notified := some ⟨id, m, derivePageUrl r,
          postAiData r env ext m⟩ } := by
  unfold POST
  simp [hrl, hbot, hm, hm', hins]

/-- C5: a failing storage insertion yields a 500 with no notification
dispatch; a failing classification (the computed `ai_data` being `null`)
with a succeeding insertion yields a 200 whose body has `ai_data: null`,
with the record persisted (and its `ai_data` column `null`). -/
theorem storage_and_ai_failure_paths (r : Req) (env : Env) (ext : Oracle)
    (s : RLState) (m : String)
    (hrl : (checkRateLimit (deriveIp r) ext.now s).1 = true)
    (hbot : isBot r.website = false)
    (hm : r.message = some m) (hm' : ¬ jsTrim m = "") :
    (∀ u, ext.insert = Except.error u →
      (POST r env ext s).response.status = 500 ∧
      (POST r env ext s).notified = none ∧
      (POST r env ext s).persisted = false) ∧
    (∀ id, ext.insert = Except.ok id → postAiData r env ext m = none →
      (POST r env ext s).response.status = 200 ∧
      getField (POST r env ext s).response.body "ai_data" =
        some Jv.null ∧
      (POST r env ext s).persisted = true ∧
      (POST r env ext s).insertedArg = some ⟨derivePageUrl r, deriveUA r,
        m, shotUrl r ext, none, jsOrNull r.project, "new"⟩) := by
  constructor
  · intro u hins
    rw [POST_accept_err r env ext s m u hrl hbot hm hm' hins]
    exact ⟨rfl, rfl, rfl⟩
  · intro id hins hai
    rw [POST_accept_ok r env ext s m id hrl hbot hm hm' hins, hai]
    exact ⟨rfl, rfl, rfl, rfl⟩

/-- Witness for C5, at a concrete request: a failing insertion gives a
500 with no notification; a failing Gemini call with a succeeding
insertion gives a 200 with `ai_data: null` and a persisted record. -/
theorem storage_and_ai_failure_paths_witness :
    ((POST c5Req envKey oraInsertFail rlEmpty).response.status = 500 ∧
     (POST c5Req envKey oraInsertFail rlEmpty).notified = none ∧
     (POST c5Req envKey oraInsertFail rlEmpty).persisted = false) ∧
    ((POST c5Req envKey oraBase rlEmpty).response.status = 200 ∧
     getField (POST c5Req envKey oraBase rlEmpty).response.body
       "ai_data" = some Jv.null ∧
     (POST c5Req envKey oraBase rlEmpty).persisted = true ∧
     (POST c5Req envKey oraBase rlEmpty).insertedArg = some
       ⟨derivePageUrl c5Req, deriveUA c5Req, "it broke",
        shotUrl c5Req oraBase, none, jsOrNull c5Req.project, "new"⟩) :=
  ⟨(storage_and_ai_failure_paths c5Req envKey oraInsertFail rlEmpty
      "it broke" rfl rfl rfl (by decide)).1 () rfl,
   (storage_and_ai_failure_paths c5Req envKey oraBase rlEmpty
      "it broke" rfl rfl rfl (by decide)).2 "row-1" rfl rfl⟩

/-- C8: a failing screenshot upload does not abort the request — the
record is still inserted and persisted with a 200, identical to the
record of the same request with a succeeding upload except that its
screenshot reference is `null` instead of the public URL; the in-memory
base64 data URL appears only in the classification call's content parts
(identical in both runs) and in none of the persisted record's fields. -/
theorem uploadFailure_tolerated (r : Req) (env : Env) (ext : Oracle)
    (s : RLState) (m : String) (bytes : List Nat) (id : String)
    (hrl : (checkRateLimit (deriveIp r) ext.now s).1 = true)
    (hbot : isBot r.website = false)
    (hm : r.message = some m) (hm' : ¬ jsTrim m = "")
    (hshot : r.screenshot = some bytes) (hnz : 0 < bytes.length)
    (hins : ext.insert = Except.ok id)
    (hup : ext.uploadOk = false) :
    (POST r env ext s).insertedArg = some ⟨derivePageUrl r, deriveUA r,
      m, none, postAiData r env ext m, jsOrNull r.project, "new"⟩ ∧
    (POST r env { ext with uploadOk := true } s).insertedArg =
      some ⟨derivePageUrl r, deriveUA r, m, some ext.publicUrl,
        postAiData r env ext m, jsOrNull r.project, "new"⟩ ∧
    (POST r env ext s).persisted = true ∧
    (POST r env ext s).response.status = 200 ∧
    (POST r env ext s).uploaded =
      some (shotFilename ext, bytes, "image/png") ∧
    (POST r env ext s).classifiedParts =
      (POST r env { ext with uploadOk := true } s).classifiedParts ∧
    shotB64 r = some ("data:image/png;base64," ++ base64Encode bytes) ∧
    (∀ k, env.geminiKey = some k → ¬ k = "" →
      (POST r env ext s).classifiedParts =
        some (buildParts m
          (some ("data:image/png;base64," ++ base64Encode bytes)))) := by
  have hsb : shotBytes r = some bytes := by simp [shotBytes, hshot, hnz]
  have hurlF : shotUrl r ext = none := by simp [shotUrl, hsb, hup]
  have hurlT : shotUrl r { ext with uploadOk := true } =
      some ext.publicUrl := by simp [shotUrl, hsb]
  have hb64 : shotB64 r =
      some ("data:image/png;base64," ++ base64Encode bytes) := by
    simp [shotB64, hsb]
  rw [POST_accept_ok r env ext s m id hrl hbot hm hm' hins,
      POST_accept_ok r env { ext with uploadOk := true } s m id hrl hbot
        hm hm' hins]
  refine ⟨by rw [hurlF], by rw [hurlT]; rfl, rfl, rfl, by rw [hsb]; rfl,
          rfl, hb64, ?_⟩
  intro k hk hk'
  simp only [postParts, hk, if_neg hk', hb64]

/-- Witness for C8: a concrete three-byte screenshot whose upload fails
is still persisted, without a screenshot reference. -/
theorem uploadFailure_tolerated_witness :
    (POST c8Req envKey oraUploadFail rlEmpty).insertedArg = some
      ⟨derivePageUrl c8Req, deriveUA c8Req, "hello", none,
       postAiData c8Req envKey oraUploadFail "hello",
       jsOrNull c8Req.project, "new"⟩ ∧
    (POST c8Req envKey { oraUploadFail with uploadOk := true }
        rlEmpty).insertedArg = some
      ⟨derivePageUrl c8Req, deriveUA c8Req, "hello",
       some oraUploadFail.publicUrl,
       postAiData c8Req envKey oraUploadFail "hello",
       jsOrNull c8Req.project, "new"⟩ ∧
    (POST c8Req envKey oraUploadFail rlEmpty).persisted = true ∧
    (POST c8Req envKey oraUploadFail rlEmpty).response.status = 200 ∧
    (POST c8Req envKey oraUploadFail rlEmpty).uploaded =
      some (shotFilename oraUploadFail, [1, 2, 3], "image/png") ∧
    (POST c8Req envKey oraUploadFail rlEmpty).classifiedParts =
      (POST c8Req envKey { oraUploadFail with uploadOk := true }
        rlEmpty).classifiedParts ∧
    shotB64 c8Req =
      some ("data:image/png;base64," ++ base64Encode [1, 2, 3]) ∧
    (∀ k, envKey.geminiKey = some k → ¬ k = "" →
      (POST c8Req envKey oraUploadFail rlEmpty).classifiedParts =
        some (buildParts "hello"
          (some ("data:image/png;base64," ++ base64Encode [1, 2, 3])))) :=
  uploadFailure_tolerated c8Req envKey oraUploadFail rlEmpty "hello"
    [1, 2, 3] "row-1" rfl rfl rfl (by decide) rfl (by decide) rfl rfl

/-- `toList` distributes over appending a `String.mk` prefix. -/
theorem toList_mk_append (l : List Char) (s : String) :
    (String.mk l ++ s).toList = l ++ s.toList := rfl

/-- No base64-alphabet index yields a comma. -/
theorem b64Char_ne_comma (n : Nat) : ¬ b64Char n = ',' := by
  rcases Nat.lt_or_ge n 64 with h | h
  · unfold b64Char
    interval_cases n <;> decide
  · unfold b64Char
    rw [List.getD_eq_default]
    · decide
    · have hlen : b64Alphabet.toList.length = 64 := by decide
      omega

/-- The base64 encoding of a byte list contains no comma. -/
theorem base64Encode_no_comma :
    ∀ (bs : List Nat), ',' ∉ (base64Encode bs).toList
  | [] => by intro h; exact absurd h (by decide)
  | [a] => by
    intro h
    rw [show base64Encode [a] = String.mk [b64Char (a % 256 / 4),
          b64Char (a % 256 % 4 * 16)] ++ "==" from rfl,
        toList_mk_append] at h
    simp only [List.mem_append, List.mem_cons, List.not_mem_nil,
      or_false] at h
    rcases h with (h | h) | h
    · exact b64Char_ne_comma _ h.symm
    · exact b64Char_ne_comma _ h.symm
    · exact absurd h (by decide)
  | [a, b] => by
    intro h
    rw [show base64Encode [a, b] = String.mk [b64Char (a % 256 / 4),
          b64Char (a % 256 % 4 * 16 + b % 256 / 16),
          b64Char (b % 256 % 16 * 4)] ++ "=" from rfl,
        toList_mk_append] at h
    simp only [List.mem_append, List.mem_cons, List.not_mem_nil,
      or_false] at h
    rcases h with (h | h | h) | h
    · exact b64Char_ne_comma _ h.symm
    · exact b64Char_ne_comma _ h.symm
    · exact b64Char_ne_comma _ h.symm
    · exact absurd h (by decide)
  | a :: b :: c :: rest => by
    intro h
    rw [show base64Encode (a :: b :: c :: rest) =
          String.mk [b64Char (a % 256 / 4),
            b64Char (a % 256 % 4 * 16 + b % 256 / 16),
            b64Char (b % 256 % 16 * 4 + c % 256 / 64),
            b64Char (c % 256 % 64)] ++ base64Encode rest from rfl,
        toList_mk_append] at h
    simp only [List.mem_append, List.mem_cons, List.not_mem_nil,
      or_false] at h
    rcases h with (h | h | h | h) | h
    · exact b64Char_ne_comma _ h.symm
    · exact b64Char_ne_comma _ h.symm
    · exact b64Char_ne_comma _ h.symm
    · exact b64Char_ne_comma _ h.symm
    · exact base64Encode_no_comma rest h

/-- `splitOnChar` on a separator-free list is the identity chunk. -/
theorem splitOnChar_no_sep (sep : Char) (l : List Char) (h : sep ∉ l) :
    splitOnChar sep l = [l] := by
  induction l with
  | nil => rfl
  | cons c cs ih =>
    rw [splitOnChar, ih (fun hm => h (List.mem_cons_of_mem c hm))]
    have hc : ¬ c = sep := fun he => h (he ▸ List.mem_cons_self c cs)
    simp [hc]

/-- `splitOnChar` never returns the empty list of chunks. -/
theorem splitOnChar_ne_nil (sep : Char) (l : List Char) :
    ¬ splitOnChar sep l = [] := by
  cases l with
  | nil => simp [splitOnChar]
  | cons c cs =>
    rw [splitOnChar]
    cases splitOnChar sep cs with
    | nil => simp
    | cons h t => by_cases hc : c = sep <;> simp [hc]

/-- Splitting a list whose first separator ends a known prefix. -/
theorem splitOnChar_pre (sep : Char) (pre x : List Char) (h : sep ∉ pre) :
    splitOnChar sep (pre ++ sep :: x) = pre :: splitOnChar sep x := by
  induction pre with
  | nil =>
    simp only [List.nil_append]
    rw [splitOnChar]
    cases hx : splitOnChar sep x with
    | nil => exact absurd hx (splitOnChar_ne_nil sep x)
    | cons hd tl => simp
  | cons c pre' ih =>
    have hc : ¬ c = sep :=
      fun he => h (he ▸ List.mem_cons_self c pre')
    have h' : sep ∉ pre' := fun hm => h (List.mem_cons_of_mem c hm)
    rw [List.cons_append, splitOnChar, ih h']
    simp [hc]

/-- The MIME type derived from a `data:image/png;base64,…` data URL is
always `image/png`, whatever the payload. -/
theorem deriveMime_dataPng (x : String) :
    deriveMime ("data:image/png;base64," ++ x) = "image/png" := rfl

/-- The `inlineData` payload extracted from a
`data:image/png;base64,…` data URL is exactly the base64 text, whatever
the encoded bytes. -/
theorem deriveBase64Data_dataPng (bs : List Nat) :
    deriveBase64Data ("data:image/png;base64," ++ base64Encode bs) =
      base64Encode bs := by
  unfold deriveBase64Data
  have htl : ("data:image/png;base64," ++ base64Encode bs).toList =
      "data:image/png;base64".toList ++ ',' :: (base64Encode bs).toList :=
    rfl
  rw [htl, splitOnChar_pre ',' _ _ (by decide),
      splitOnChar_no_sep ',' _ (base64Encode_no_comma bs)]
  show String.mk (base64Encode bs).toList = base64Encode bs
  rfl

/-- C10: an accepted submission's screenshot is handled as `image/png`
end to end, whatever its real format: it is uploaded under the generated
`.png` filename with content type `image/png`, the retained data URL is
`data:image/png;base64,…`, the classification call's image part carries
MIME type `image/png` (derived from that data prefix), and the derivation
itself always yields `image/png` on such a prefix. -/
theorem screenshot_always_png (r : Req) (env : Env) (ext : Oracle)
    (s : RLState) (m : String) (bytes : List Nat) (k : String)
    (id : String)
    (hrl : (checkRateLimit (deriveIp r) ext.now s).1 = true)
    (hbot : isBot r.website = false)
    (hm : r.message = some m) (hm' : ¬ jsTrim m = "")
    (hshot : r.screenshot = some bytes) (hnz : 0 < bytes.length)
    (hk : env.geminiKey = some k) (hk' : ¬ k = "")
    (hins : ext.insert = Except.ok id) :
    (POST r env ext s).uploaded =
      some (toString ext.now ++ "-" ++ ext.rand ++ ".png", bytes,
        "image/png") ∧
    (∃ stem, shotFilename ext = stem ++ ".png") ∧
    shotB64 r = some ("data:image/png;base64," ++ base64Encode bytes) ∧
    (POST r env ext s).classifiedParts =
      some [GPart.text (promptFor m),
            GPart.inlineData "image/png" (base64Encode bytes)] ∧
    deriveMime ("data:image/png;base64," ++ base64Encode bytes) =
      "image/png" := by
  have hsb : shotBytes r = some bytes := by simp [shotBytes, hshot, hnz]
  have hb64 : shotB64 r =
      some ("data:image/png;base64," ++ base64Encode bytes) := by
    simp [shotB64, hsb]
  rw [POST_accept_ok r env ext s m id hrl hbot hm hm' hins]
  refine ⟨by rw [hsb]; rfl,
          ⟨toString ext.now ++ "-" ++ ext.rand, by
            simp [shotFilename, String.append_assoc]⟩,
          hb64, ?_, deriveMime_dataPng _⟩
  show postParts r env m = _
  rw [postParts, hk]
  simp only [if_neg hk', hb64, buildParts, deriveMime_dataPng,
    deriveBase64Data_dataPng]

/-- Witness for C10 at a concrete three-byte screenshot. -/
theorem screenshot_always_png_witness :
    (POST c8Req envKey oraBase rlEmpty).uploaded =
      some (toString oraBase.now ++ "-" ++ oraBase.rand ++ ".png",
        [1, 2, 3], "image/png") ∧
    (∃ stem, shotFilename oraBase = stem ++ ".png") ∧
    shotB64 c8Req =
      some ("data:image/png;base64," ++ base64Encode [1, 2, 3]) ∧
    (POST c8Req envKey oraBase rlEmpty).classifiedParts =
      some [GPart.text (promptFor "hello"),
            GPart.inlineData "image/png" (base64Encode [1, 2, 3])] ∧
    deriveMime ("data:image/png;base64," ++ base64Encode [1, 2, 3]) =
      "image/png" :=
  screenshot_always_png c8Req envKey oraBase rlEmpty "hello" [1, 2, 3]
    "test-key" "row-1" rfl rfl rfl (by decide) rfl (by decide) rfl
    (by decide) rfl

/-- A passing `strIncludes` check pins the value to a string of the
enumeration. -/
theorem strIncludes_spec (l : List String) (o : Option Jv)
    (h : strIncludes l o = true) :
    ∃ s, o = some (Jv.str s) ∧ s ∈ l := by
  match o with
  | none => exact absurd h (by simp [strIncludes])
  | some v =>
    match v with
    | Jv.null | Jv.bool _ | Jv.num _ | Jv.arr _ | Jv.obj _ =>
      exact absurd h (by simp [strIncludes])
    | Jv.str s =>
      refine ⟨s, rfl, ?_⟩
      simpa [strIncludes] using h

/-- A passing `isArrVal` check pins the value to an array. -/
theorem isArrVal_spec (o : Option Jv) (h : isArrVal o = true) :
    ∃ xs, o = some (Jv.arr xs) := by
  match o with
  | none => exact absurd h (by simp [isArrVal])
  | some v =>
    match v with
    | Jv.null | Jv.bool _ | Jv.num _ | Jv.str _ | Jv.obj _ =>
      exact absurd h (by simp [isArrVal])
    | Jv.arr xs => exact ⟨xs, rfl⟩

/-- C2 (amended): `analyzeFeedback` never throws (every failure path of
the model yields `none`) and returns either `none` or a value passing
exactly the code's validation: truthy `title`, `short_summary` and
`suggested_feature_area`, `key_details` an array, `suggested_category`
and `suggested_priority` strings of their closed enumerations.  The
`confidence`, `steps`, `expected` and `clarifying_questions` fields are
not validated (see the counterexample). -/
theorem analyzeFeedback_validated (m : String) (sb : Option String)
    (k : String) (net : Except Unit String) :
    analyzeFeedback m sb k net = none ∨
    ∃ v, analyzeFeedback m sb k net = some v ∧ validateAI v = true ∧
      (∃ c, getField v "suggested_category" = some (Jv.str c) ∧
        c ∈ categoryEnum) ∧
      (∃ p, getField v "suggested_priority" = some (Jv.str p) ∧
        p ∈ priorityEnum) ∧
      (∃ xs, getField v "key_details" = some (Jv.arr xs)) ∧
      truthy (getField v "title") = true ∧
      truthy (getField v "short_summary") = true ∧
      truthy (getField v "suggested_feature_area") = true := by
  cases hres : analyzeFeedback m sb k net with
  | none => exact Or.inl rfl
  | some v =>
    have hv : validateAI v = true := by
      unfold analyzeFeedback at hres
      by_cases hk : k = ""
      · simp [hk] at hres
      · rw [if_neg hk] at hres
        rcases net with u | text
        · simp at hres
        · by_cases ht : text = ""
          · simp [ht] at hres
          · simp only [eq_self_iff_true, ht, if_false, if_neg] at hres
            rcases hp : parseJson (extractJson text) with _ | aiData
            · simp [hp] at hres
            · simp only [hp] at hres
              by_cases hva : validateAI aiData = true
              · simp only [hva, if_true] at hres
                cases hres
                exact hva
              · simp [hva] at hres
    refine Or.inr ⟨v, rfl, hv, ?_, ?_, ?_, ?_, ?_, ?_⟩
    all_goals
      simp only [validateAI, Bool.and_eq_true] at hv
    · exact strIncludes_spec _ _ hv.1.1.2
    · exact strIncludes_spec _ _ hv.2
    · exact isArrVal_spec _ hv.1.1.1.2
    · exact hv.1.1.1.1.1
    · exact hv.1.1.1.1.2
    · exact hv.1.2

set_option maxRecDepth 100000

/-- C2 counterexample: a reply whose fields pass the code's validation
while violating the §3 schema — `confidence` is `5`, outside `[0, 1]`,
`title` is the number `5` rather than a string, and `steps` is absent —
is returned as-is by `analyzeFeedback` instead of `null`. -/
theorem analyzeFeedback_schema_counterexample :
    (analyzeFeedback "m" none "key" (Except.ok c2Raw)).isSome = true ∧
    (analyzeFeedback "m" none "key" (Except.ok c2Raw)).map
      (fun v => getField v "confidence") = some (some (Jv.num 5)) ∧
    ¬ ((5 : ℚ) ≤ 1) ∧
    (analyzeFeedback "m" none "key" (Except.ok c2Raw)).map
      (fun v => getField v "title") = some (some (Jv.num 5)) ∧
    (analyzeFeedback "m" none "key" (Except.ok c2Raw)).map
      (fun v => getField v "steps") = some none :=
  ⟨rfl, rfl, by norm_num, rfl, rfl⟩

/-- `dropWhile` skips over a block of characters that all satisfy the
predicate. -/
theorem dropWhile_append_sat (p : Char → Bool) (w l : List Char)
    (h : ∀ c ∈ w, p c = true) :
    List.dropWhile p (w ++ l) = List.dropWhile p l := by
  induction w with
  | nil => rfl
  | cons c w ih =>
    rw [List.cons_append, List.dropWhile_cons]
    rw [h c (List.mem_cons_self c w)]
    simp only [if_true]
    exact ih (fun c hc => h c (List.mem_cons_of_mem _ hc))

/-- Any character list splits as whitespace, its trim, and whitespace. -/
theorem trimWs_decomp (cs : List Char) :
    ∃ w1 w2, (∀ c ∈ w1, isWs c = true) ∧ (∀ c ∈ w2, isWs c = true) ∧
      cs = w1 ++ trimWs cs ++ w2 := by
  refine ⟨cs.takeWhile isWs,
    ((cs.dropWhile isWs).reverse.takeWhile isWs).reverse, ?_, ?_, ?_⟩
  · intro c hc
    exact List.mem_takeWhile_imp hc
  · intro c hc
    rw [List.mem_reverse] at hc
    exact List.mem_takeWhile_imp hc
  · conv_lhs => rw [← List.takeWhile_append_dropWhile (p := isWs)
      (l := cs)]
    rw [List.append_assoc]
    congr 1
    unfold trimWs
    conv_lhs => rw [← List.reverse_reverse (cs.dropWhile isWs),
      ← List.takeWhile_append_dropWhile (p := isWs)
        (l := (cs.dropWhile isWs).reverse)]
    rw [List.reverse_append]

/-- Trimming is the identity when neither end is whitespace. -/
theorem trimWs_of_nonWs (cs : List Char)
    (h1 : List.dropWhile isWs cs = cs)
    (h2 : List.dropWhile isWs cs.reverse = cs.reverse) :
    trimWs cs = cs := by
  unfold trimWs
  rw [h1, h2, List.reverse_reverse]

/-- `dropWhile` is the identity on the reverse of a list whose last
character is not whitespace. -/
theorem dropWhile_reverse_of_getLast (l : List Char) (c : Char)
    (h : l.getLast? = some c) (hc : isWs c = false) :
    List.dropWhile isWs l.reverse = l.reverse := by
  rw [← List.head?_reverse] at h
  cases hr : l.reverse with
  | nil => rfl
  | cons a tl =>
    rw [hr, List.head?_cons, Option.some.injEq] at h
    subst h
    rw [List.dropWhile_cons, hc]
    simp

/-- `greedyClose` finds nothing in a list without a closing brace. -/
theorem greedyClose_none (l : List Char) (h : rbrace ∉ l) :
    greedyClose l = none := by
  induction l with
  | nil => rfl
  | cons c cs ih =>
    rw [greedyClose, ih (fun hm => h (List.mem_cons_of_mem c hm))]
    have hc : ¬ c = rbrace :=
      fun he => h (he ▸ List.mem_cons_self c cs)
    simp [hc]

/-- The greedy `[\s\S]*` lands on the last closing brace: when the list
is a block ending in `}` followed by a remainder holding no `}` but
admitting `\s*` and a closing fence, the capture is the whole block. -/
theorem greedyClose_append (p rest : List Char) (hlast : p.getLast? = some rbrace)
    (hrest : rbrace ∉ rest) (hfence : wsFence rest = true) :
    greedyClose (p ++ rest) = some p := by
  induction p with
  | nil => simp at hlast
  | cons c p' ih =>
    cases p' with
    | nil =>
      rw [List.getLast?_singleton, Option.some.injEq] at hlast
      subst hlast
      rw [List.singleton_append, greedyClose, greedyClose_none rest hrest]
      simp [hfence]
    | cons d p'' =>
      have hlast' : (d :: p'').getLast? = some rbrace := by
        rw [List.getLast?_cons_cons] at hlast
        exact hlast
      rw [List.cons_append, greedyClose, ih hlast']

/-- A fence-free list admits no fenced-block match. -/
theorem findFenced_none (l : List Char) (h : containsFence l = false) :
    findFenced l = none := by
  induction l with
  | nil => rfl
  | cons c cs ih =>
    rw [containsFence, Bool.or_eq_false_iff] at h
    rw [findFenced, h.1]
    simp only [Bool.false_eq_true, if_false]
    exact ih h.2

/-- The last element of an append with a known-last right part. -/
theorem getLast?_append_right (l1 l2 : List Char) (c : Char)
    (h : l2.getLast? = some c) : (l1 ++ l2).getLast? = some c := by
  rw [← List.head?_reverse] at h ⊢
  rw [List.reverse_append]
  cases hr : l2.reverse with
  | nil => rw [hr] at h; exact absurd h (by simp)
  | cons a tl =>
    rw [hr] at h
    rw [List.head?_cons] at h
    simp only [List.cons_append, List.head?_cons]
    exact h

/-- After the opening fence and optional `json` tag, the regex body
captures exactly the trimmed JSON block of a wrapped reply. -/
theorem fenceBody_wrap (w1 w2 t' : List Char)
    (hw1 : ∀ c ∈ w1, isWs c = true) (hw2 : ∀ c ∈ w2, isWs c = true)
    (hlast' : t'.getLast? = some rbrace) :
    fenceBody ('\n' :: (w1 ++ ((lbrace :: t') ++ (w2 ++ '\n' :: fenceMark)))) =
      some (lbrace :: t') := by
  unfold fenceBody
  have hdrop : List.dropWhile isWs
      ('\n' :: (w1 ++ ((lbrace :: t') ++ (w2 ++ '\n' :: fenceMark)))) =
      lbrace :: (t' ++ (w2 ++ '\n' :: fenceMark)) := by
    rw [List.dropWhile_cons]
    have hnl : isWs '\n' = true := by decide
    rw [hnl]
    simp only [if_true]
    rw [dropWhile_append_sat isWs w1 _ hw1, List.cons_append,
        List.dropWhile_cons]
    have hlb : isWs lbrace = false := by decide
    rw [hlb]
    simp
  rw [hdrop]
  have hrest : rbrace ∉ w2 ++ '\n' :: fenceMark := by
    intro hm
    rcases List.mem_append.1 hm with hm | hm
    · have := hw2 rbrace hm
      exact absurd this (by decide)
    · exact absurd hm (by decide)
  have hfence2 : wsFence (w2 ++ '\n' :: fenceMark) = true := by
    unfold wsFence
    rw [dropWhile_append_sat isWs w2 _ hw2, List.dropWhile_cons]
    have hnl : isWs '\n' = true := by decide
    rw [hnl]
    simp only [if_true]
    decide
  show (if lbrace = lbrace then
      Option.map (fun p => lbrace :: p)
        (greedyClose (t' ++ (w2 ++ '\n' :: fenceMark)))
    else none) = some (lbrace :: t')
  rw [if_pos rfl,
      greedyClose_append t' (w2 ++ '\n' :: fenceMark) hlast' hrest hfence2]
  rfl

/-- The fenced-block regex matches a wrapped reply at the opening fence,
with the `json` language tag, capturing the trimmed block. -/
theorem findFenced_wrapJson (jl w1 w2 t' : List Char)
    (hw1 : ∀ c ∈ w1, isWs c = true) (hw2 : ∀ c ∈ w2, isWs c = true)
    (hdecomp : jl = w1 ++ ((lbrace :: t') ++ w2))
    (hlast' : t'.getLast? = some rbrace) :
    findFenced (btick :: btick :: btick :: 'j' :: 's' :: 'o' :: 'n' ::
      '\n' :: (jl ++ '\n' :: fenceMark)) = some (lbrace :: t') := by
  rw [findFenced]
  have hpre : fenceMark.isPrefixOf (btick :: btick :: btick :: 'j' ::
      's' :: 'o' :: 'n' :: '\n' :: (jl ++ '\n' :: fenceMark)) = true := by
    simp [fenceMark, List.isPrefixOf]
  rw [hpre]
  simp only [if_true, List.drop_succ_cons, List.drop_zero]
  have hjson : jsonWord.isPrefixOf ('j' :: 's' :: 'o' :: 'n' ::
      '\n' :: (jl ++ '\n' :: fenceMark)) = true := by
    simp [jsonWord, List.isPrefixOf]
  rw [hjson]
  simp only [if_true, List.drop_succ_cons, List.drop_zero]
  have hbody : '\n' :: (jl ++ '\n' :: fenceMark) =
      '\n' :: (w1 ++ ((lbrace :: t') ++ (w2 ++ '\n' :: fenceMark))) := by
    rw [hdecomp]
    simp [List.append_assoc]
  rw [hbody, fenceBody_wrap w1 w2 t' hw1 hw2 hlast']

/-- The fenced-block regex matches a wrapped reply at the opening fence,
without a language tag, capturing the trimmed block. -/
theorem findFenced_wrapPlain (jl w1 w2 t' : List Char)
    (hw1 : ∀ c ∈ w1, isWs c = true) (hw2 : ∀ c ∈ w2, isWs c = true)
    (hdecomp : jl = w1 ++ ((lbrace :: t') ++ w2))
    (hlast' : t'.getLast? = some rbrace) :
    findFenced (btick :: btick :: btick ::
      '\n' :: (jl ++ '\n' :: fenceMark)) = some (lbrace :: t') := by
  rw [findFenced]
  have hpre : fenceMark.isPrefixOf (btick :: btick :: btick ::
      '\n' :: (jl ++ '\n' :: fenceMark)) = true := by
    simp [fenceMark, List.isPrefixOf]
  rw [hpre]
  simp only [if_true, List.drop_succ_cons, List.drop_zero]
  have hjson : jsonWord.isPrefixOf
      ('\n' :: (jl ++ '\n' :: fenceMark)) = false := by
    simp [jsonWord, List.isPrefixOf]
  rw [hjson]
  simp only [Bool.false_eq_true, if_false]
  have hbody : '\n' :: (jl ++ '\n' :: fenceMark) =
      '\n' :: (w1 ++ ((lbrace :: t') ++ (w2 ++ '\n' :: fenceMark))) := by
    rw [hdecomp]
    simp [List.append_assoc]
  rw [hbody, fenceBody_wrap w1 w2 t' hw1 hw2 hlast']

/-- C7 (amended): for every JSON-object-shaped text `j` (trimming to a
block that starts with `{` and ends with `}`) that contains no
three-backtick fence, the extraction step yields the trimmed `j` whether
`j` is wrapped in a fenced code block (with or without the `json` tag) or
not — hence the subsequent `JSON.parse` sees the same input and yields
the same result.  Without the fence-free proviso this fails (see the
counterexample). -/
theorem fencedExtraction_roundtrip (j : String) (useJson : Bool)
    (hhead : (trimWs j.toList).head? = some lbrace)
    (hlast : (trimWs j.toList).getLast? = some rbrace)
    (hfence : containsFence (trimWs j.toList) = false) :
    extractJson (fenceWrap useJson j) = jsTrim j ∧
    extractJson j = jsTrim j ∧
    parseJson (extractJson (fenceWrap useJson j)) =
      parseJson (extractJson j) := by
  obtain ⟨w1, w2, hw1, hw2, hdecomp⟩ := trimWs_decomp j.toList
  obtain ⟨t', ht'⟩ : ∃ t', trimWs j.toList = lbrace :: t' := by
    cases ht : trimWs j.toList with
    | nil => rw [ht] at hhead; exact absurd hhead (by simp)
    | cons a tl =>
      rw [ht, List.head?_cons, Option.some.injEq] at hhead
      exact ⟨tl, by rw [hhead]⟩
  have hlast' : t'.getLast? = some rbrace := by
    rw [ht'] at hlast
    cases t' with
    | nil =>
      rw [List.getLast?_singleton, Option.some.injEq] at hlast
      exact absurd hlast (by decide)
    | cons b t'' =>
      rw [List.getLast?_cons_cons] at hlast
      exact hlast
  rw [ht', List.append_assoc] at hdecomp
  have hffj : findFenced (trimWs j.toList) = none :=
    findFenced_none _ hfence
  have hunwrapped : extractJson j = jsTrim j := by
    unfold extractJson jsTrim
    simp only [hffj]
  have hwrapped : extractJson (fenceWrap useJson j) = jsTrim j := by
    cases useJson with
    | true =>
      have hWform : (fenceWrap true j).toList =
          btick :: btick :: btick :: 'j' :: 's' :: 'o' :: 'n' ::
            '\n' :: (j.toList ++ '\n' :: fenceMark) := by
        show (("```json\n" ++ j) ++ "\n```").data = _
        rw [String.data_append, String.data_append, List.append_assoc]
        rfl
      have htrimW : trimWs (fenceWrap true j).toList =
          (fenceWrap true j).toList := by
        apply trimWs_of_nonWs
        · rw [hWform, List.dropWhile_cons]
          have hb : isWs btick = false := by decide
          rw [hb]
          simp
        · apply dropWhile_reverse_of_getLast _ btick _ (by decide)
          rw [hWform]
          show (([btick, btick, btick, 'j', 's', 'o', 'n', '\n'] :
            List Char) ++ (j.toList ++ '\n' :: fenceMark)).getLast? =
            some btick
          exact getLast?_append_right _ _ _
            (getLast?_append_right _ _ _ (by decide))
      have hff : findFenced (fenceWrap true j).toList =
          some (lbrace :: t') := by
        rw [hWform]
        exact findFenced_wrapJson j.toList w1 w2 t' hw1 hw2 hdecomp hlast'
      unfold extractJson jsTrim
      simp only [htrimW, hff, ht']
    | false =>
      have hWform : (fenceWrap false j).toList =
          btick :: btick :: btick ::
            '\n' :: (j.toList ++ '\n' :: fenceMark) := by
        show (("```\n" ++ j) ++ "\n```").data = _
        rw [String.data_append, String.data_append, List.append_assoc]
        rfl
      have htrimW : trimWs (fenceWrap false j).toList =
          (fenceWrap false j).toList := by
        apply trimWs_of_nonWs
        · rw [hWform, List.dropWhile_cons]
          have hb : isWs btick = false := by decide
          rw [hb]
          simp
        · apply dropWhile_reverse_of_getLast _ btick _ (by decide)
          rw [hWform]
          show (([btick, btick, btick, '\n'] :
            List Char) ++ (j.toList ++ '\n' :: fenceMark)).getLast? =
            some btick
          exact getLast?_append_right _ _ _
            (getLast?_append_right _ _ _ (by decide))
      have hff : findFenced (fenceWrap false j).toList =
          some (lbrace :: t') := by
        rw [hWform]
        exact findFenced_wrapPlain j.toList w1 w2 t' hw1 hw2 hdecomp
          hlast'
      unfold extractJson jsTrim
      simp only [htrimW, hff, ht']
  exact ⟨hwrapped, hunwrapped, by rw [hwrapped, hunwrapped]⟩

/-- Witness for C7's amended theorem: a concrete fence-free JSON object
text is extracted identically wrapped and unwrapped. -/
theorem fencedExtraction_roundtrip_witness :
    extractJson (fenceWrap true c7Plain) = jsTrim c7Plain ∧
    extractJson c7Plain = jsTrim c7Plain ∧
    parseJson (extractJson (fenceWrap true c7Plain)) =
      parseJson (extractJson c7Plain) :=
  fencedExtraction_roundtrip c7Plain true rfl rfl rfl

/-- C7 counterexample: a JSON object text containing a backtick fence
inside one of its string literals.  Unwrapped, the regex matches the
inner fence and extraction keeps only the inner braces (which parse to
the empty object); wrapped, extraction keeps the whole object — so the
extraction-and-parse step is not invariant under fenced-code-block
wrapping for every JSON object text. -/
theorem fencedExtraction_counterexample :
    parseJson c7J = some (Jv.obj [("a", Jv.str "``` \x7b\x7d ```")]) ∧
    extractJson c7J = "\x7b\x7d" ∧
    extractJson (fenceWrap true c7J) = c7J ∧
    parseJson (extractJson (fenceWrap true c7J)) = 
      some (Jv.obj [("a", Jv.str "``` \x7b\x7d ```")]) ∧
    parseJson (extractJson c7J) = some (Jv.obj []) ∧
    ¬ parseJson (extractJson (fenceWrap true c7J)) =
        parseJson (extractJson c7J) := by
  refine ⟨rfl, rfl, rfl, rfl, rfl, ?_⟩
  intro h
  have h1 : parseJson (extractJson (fenceWrap true c7J)) =
      some (Jv.obj [("a", Jv.str "``` \x7b\x7d ```")]) := rfl
  have h2 : parseJson (extractJson c7J) = some (Jv.obj []) := rfl
  rw [h1, h2, Option.some.injEq] at h
  have h3 : ([("a", Jv.str "``` \x7b\x7d ```")] :
      List (String × Jv)) = [] := by
    injection h
  exact absurd h3 (by simp)
